import Mathlib

/-!
Verification development for the azul layout crate
(source file src/azul-layout/lib.rs: the orchestration facade
SolvedUi::new, the style adapter GetStyle for DisplayRectangle and its
helper translate_dimension).

Shallow-embedding conventions:
* finite f32 values are modelled as exact rationals; rounding is
  abstracted away (no settled claim depends on it); the non-finite f32
  values that the image aspect-ratio division can produce are modelled
  explicitly by the F32 type;
* the modules of the crate that are not under src/ (algo, number,
  geometry, style) and the azul_core / azul_css collaborator types are
  modelled from the specification; each such definition carries a doc
  comment starting with "Modelled from the spec:";
* Rust mutation is explicit state passing, fallible computation (the
  process faulting on a caller contract violation) is Except.
-/

namespace AzulLayout

/-- Modelled f32 value: a finite value (an exact rational, abstracting
rounding) or one of the non-finite values positive infinity, negative
infinity, NaN. -/
inductive F32 where
  | fin (q : ℚ)
  | inf
  | negInf
  | nan
deriving DecidableEq

/-- Division (w as f32) / (h as f32) for usize operands w h, as performed
by the image aspect-ratio computation in SolvedUi::new (lib.rs line 97):
h = 0 yields NaN (when w = 0) or positive infinity (when w > 0);
otherwise both operands are finite and nonzero denominator gives the
finite quotient (no overflow is possible for usize-converted operands). -/
def F32.divNat (w h : Nat) : F32 :=
  if h = 0 then (if w = 0 then F32.nan else F32.inf) else F32.fin ((w : ℚ) / (h : ℚ))

/-- Modelled from the spec: the tri-state Number of the number module
(spec section 4.1), Undefined or Defined float. -/
inductive Number where
  | Undefined
  | Defined (v : F32)
deriving DecidableEq

/-- Finite payload of a Number; non-finite Defined values normalize to
the undefined state when entering layout arithmetic (spec section 7). -/
def Number.toQ : Number → Option ℚ
  | Number.Defined (F32.fin q) => some q
  | _ => none

/-- Modelled from the spec: Number.get_or — callers explicitly choose a
default when they need a concrete value (spec section 4.1). -/
def Number.get_or (n : Number) (d : ℚ) : ℚ := (Number.toQ n).getD d

/-- Wrap a rational as a Defined finite Number. -/
def Number.definedQ (q : ℚ) : Number := Number.Defined (F32.fin q)

/-- Modelled from the spec: Number.add (spec section 4.1), Undefined
absorbs. -/
def Number.add (a b : Number) : Number :=
  match Number.toQ a, Number.toQ b with
  | some x, some y => Number.definedQ (x + y)
  | _, _ => Number.Undefined

/-- Subtraction on Number, Undefined absorbs. -/
def Number.sub (a b : Number) : Number :=
  match Number.toQ a, Number.toQ b with
  | some x, some y => Number.definedQ (x - y)
  | _, _ => Number.Undefined

/-- Modelled from the spec: the tri-state length of the geometry module
(spec sections 2 and 3): Undefined, Auto, Pixels or Percent. -/
inductive Dimension where
  | Undefined
  | Auto
  | Pixels (v : ℚ)
  | Percent (v : ℚ)
deriving DecidableEq

/-- Modelled from the spec: paired 2-D size built over a component type
(geometry module). -/
structure Size (α : Type) where
  width : α
  height : α
deriving DecidableEq

/-- Modelled from the spec: 4-sided offsets built over a component type
(geometry module). -/
structure Offsets (α : Type) where
  left : α
  right : α
  top : α
  bottom : α
deriving DecidableEq

/-- Modelled from the spec: dimension resolution against a reference
size (spec section 4.2): Pixels resolve to themselves, Percent resolves
against a Defined reference and is Undefined otherwise, Auto and
Undefined resolve to Undefined. -/
def resolve (d : Dimension) (reference : Number) : Number :=
  match d with
  | Dimension.Pixels v => Number.definedQ v
  | Dimension.Percent p =>
    match Number.toQ reference with
    | some r => Number.definedQ (p / 100 * r)
    | none => Number.Undefined
  | Dimension.Auto => Number.Undefined
  | Dimension.Undefined => Number.Undefined

/-- Modelled from the spec: display mode of the style module. -/
inductive Display where
  | Flex
  | Inline
  | None
deriving DecidableEq

/-- Modelled from the spec: box-sizing mode of the style module. -/
inductive BoxSizing where
  | ContentBox
  | BorderBox
deriving DecidableEq

/-- Modelled from the spec: position type of the style module. -/
inductive PositionType where
  | Relative
  | Absolute
deriving DecidableEq

/-- Modelled from the spec: text direction of the style module (a single
fixed direction is assumed, spec section 1). -/
inductive Direction where
  | LTR
  | RTL
deriving DecidableEq

/-- Modelled from the spec: flex main-axis direction of the style
module. -/
inductive FlexDirection where
  | Row
  | RowReverse
  | Column
  | ColumnReverse
deriving DecidableEq

/-- Modelled from the spec: flex wrapping mode of the style module. -/
inductive FlexWrap where
  | NoWrap
  | Wrap
  | WrapReverse
deriving DecidableEq

/-- Modelled from the spec: overflow mode of the style module. -/
inductive Overflow where
  | Visible
  | Hidden
  | Scroll
deriving DecidableEq

/-- Modelled from the spec: align-items values of the style module. -/
inductive AlignItems where
  | FlexStart
  | FlexEnd
  | Center
  | Baseline
  | Stretch
deriving DecidableEq

/-- Modelled from the spec: align-self values of the style module. -/
inductive AlignSelf where
  | Auto
  | FlexStart
  | FlexEnd
  | Center
  | Baseline
  | Stretch
deriving DecidableEq

/-- Modelled from the spec: align-content values of the style module. -/
inductive AlignContent where
  | FlexStart
  | FlexEnd
  | Center
  | Stretch
  | SpaceBetween
  | SpaceAround
deriving DecidableEq

/-- Modelled from the spec: justify-content values of the style
module. -/
inductive JustifyContent where
  | FlexStart
  | FlexEnd
  | Center
  | SpaceBetween
  | SpaceAround
  | SpaceEvenly
deriving DecidableEq

/-- Modelled from the spec: units of an azul_css PixelValue. -/
inductive SizeMetric where
  | Px
  | Pt
  | Em
  | Percent
deriving DecidableEq

/-- Modelled from the spec: an azul_css PixelValue, a unit together with
a float magnitude (the FloatValue wrapper and its .get() accessor are
modelled directly by the rational payload). -/
structure PixelValue where
  metric : SizeMetric
  number : ℚ
deriving DecidableEq

/-- Modelled from the spec: azul_css constant PT_TO_PX, the
points-to-pixels factor 96/72 (spec section 4.3). -/
def PT_TO_PX : ℚ := 96 / 72

/-- Modelled from the spec: azul_css constant EM_HEIGHT, the root font
height in pixels used for em conversion (spec section 4.3); the
concrete value is not fixed by the spec, 16 px is used. -/
def EM_HEIGHT : ℚ := 16

/-- Modelled from the spec: azul_css CssPropertyValue, an externally
resolved property value which is absent (the enclosing Option), auto,
none, initial, inherit, or exact (spec section 4.3). -/
inductive CssPropertyValue (α : Type) where
  | Auto
  | None
  | Initial
  | Inherit
  | Exact (v : α)
deriving DecidableEq

/-- Modelled from the spec: azul_css CssPropertyValue::get_property_or_default,
which yields the exact value, the property's fixed default for auto and
initial, and nothing for none and inherit. -/
def CssPropertyValue.get_property_or_default (dflt : α) : CssPropertyValue α → Option α
  | CssPropertyValue.Auto => some dflt
  | CssPropertyValue.Initial => some dflt
  | CssPropertyValue.None => none
  | CssPropertyValue.Inherit => none
  | CssPropertyValue.Exact v => some v

/-- Modelled from the spec: azul_css CssPropertyValue::get_property_owned,
which yields the value only for an exact property. -/
def CssPropertyValue.get_property_owned : CssPropertyValue α → Option α
  | CssPropertyValue.Exact v => some v
  | _ => none

/-- Modelled from the spec: Option::unwrap_or_default over a
CssPropertyValue whose Default is the exact per-property default value
("one fixed default per property", spec section 4.3). -/
def unwrapOrDefault (dflt : α) (o : Option (CssPropertyValue α)) : CssPropertyValue α :=
  o.getD (CssPropertyValue.Exact dflt)

/-- Modelled from the spec: azul_css LayoutDisplay. -/
inductive LayoutDisplay where
  | Flex
  | Inline
deriving DecidableEq

/-- Modelled from the spec: azul_css LayoutBoxSizing. -/
inductive LayoutBoxSizing where
  | ContentBox
  | BorderBox
deriving DecidableEq

/-- Modelled from the spec: azul_css LayoutPosition. -/
inductive LayoutPosition where
  | Static
  | Relative
  | Absolute
deriving DecidableEq

/-- Modelled from the spec: azul_css LayoutDirection. -/
inductive LayoutDirection where
  | Row
  | RowReverse
  | Column
  | ColumnReverse
deriving DecidableEq

/-- Modelled from the spec: azul_css LayoutWrap. -/
inductive LayoutWrap where
  | Wrap
  | NoWrap
deriving DecidableEq

/-- Modelled from the spec: azul_css Overflow (imported as
LayoutOverflow in lib.rs). -/
inductive LayoutOverflow where
  | Scroll
  | Auto
  | Hidden
  | Visible
deriving DecidableEq

/-- Modelled from the spec: azul_css LayoutAlignItems. -/
inductive LayoutAlignItems where
  | Stretch
  | Center
  | Start
  | End
deriving DecidableEq

/-- Modelled from the spec: azul_css LayoutAlignContent. -/
inductive LayoutAlignContent where
  | Stretch
  | Center
  | Start
  | End
  | SpaceBetween
  | SpaceAround
deriving DecidableEq

/-- Modelled from the spec: azul_css LayoutJustifyContent. -/
inductive LayoutJustifyContent where
  | Center
  | Start
  | End
  | SpaceBetween
  | SpaceAround
  | SpaceEvenly
deriving DecidableEq

/-- Modelled from the spec: the per-property fixed default used when a
box-sizing property is unset (content box). -/
def layoutBoxSizingDefault : LayoutBoxSizing := LayoutBoxSizing.ContentBox

/-- Modelled from the spec: the per-property fixed default used when a
position property is unset (static). -/
def layoutPositionDefault : LayoutPosition := LayoutPosition.Static

/-- Modelled from the spec: the per-property fixed default used when a
flex-direction property is unset (row). -/
def layoutDirectionDefault : LayoutDirection := LayoutDirection.Row

/-- Modelled from the spec: the per-property fixed default used when a
wrap property is unset (no wrap). -/
def layoutWrapDefault : LayoutWrap := LayoutWrap.NoWrap

/-- Modelled from the spec: the per-property fixed default used when an
overflow property is unset (auto). -/
def layoutOverflowDefault : LayoutOverflow := LayoutOverflow.Auto

/-- Modelled from the spec: the per-property fixed default used when an
align-items property is unset (stretch). -/
def layoutAlignItemsDefault : LayoutAlignItems := LayoutAlignItems.Stretch

/-- Modelled from the spec: the per-property fixed default used when an
align-content property is unset (stretch). -/
def layoutAlignContentDefault : LayoutAlignContent := LayoutAlignContent.Stretch

/-- Modelled from the spec: the per-property fixed default used when a
justify-content property is unset (start). -/
def layoutJustifyContentDefault : LayoutJustifyContent := LayoutJustifyContent.Start

/-- Modelled from the spec: the fixed default of the flex-grow factor
(zero). -/
def flexGrowDefault : ℚ := 0

/-- Modelled from the spec: the fixed default of the flex-shrink factor
(one). -/
def flexShrinkDefault : ℚ := 1

/-- Modelled from the spec: azul_core constant DEFAULT_FONT_SIZE; the
concrete value is not fixed by the spec, 16 px is used. -/
def DEFAULT_FONT_SIZE : PixelValue := { metric := SizeMetric.Px, number := 16 }

/-- Modelled from the spec: the per-box Style record consumed by the
layout algorithm (spec sections 2 and 3 and the field list read off the
adapter in lib.rs lines 153-265). The aspect-ratio style field is named
aspect here. Field defaults mirror the style module's Default instance
and are only a notational convenience for building concrete inputs. -/
structure Style where
  display : Display := Display.Flex
  box_sizing : BoxSizing := BoxSizing.ContentBox
  position_type : PositionType := PositionType.Relative
  direction : Direction := Direction.LTR
  flex_direction : FlexDirection := FlexDirection.Row
  flex_wrap : FlexWrap := FlexWrap.NoWrap
  overflow : Overflow := Overflow.Visible
  align_items : AlignItems := AlignItems.Stretch
  align_self : AlignSelf := AlignSelf.Auto
  align_content : AlignContent := AlignContent.Stretch
  justify_content : JustifyContent := JustifyContent.FlexStart
  position : Offsets Dimension :=
    { left := Dimension.Undefined, right := Dimension.Undefined,
      top := Dimension.Undefined, bottom := Dimension.Undefined }
  margin : Offsets Dimension :=
    { left := Dimension.Undefined, right := Dimension.Undefined,
      top := Dimension.Undefined, bottom := Dimension.Undefined }
  padding : Offsets Dimension :=
    { left := Dimension.Undefined, right := Dimension.Undefined,
      top := Dimension.Undefined, bottom := Dimension.Undefined }
  border : Offsets Dimension :=
    { left := Dimension.Undefined, right := Dimension.Undefined,
      top := Dimension.Undefined, bottom := Dimension.Undefined }
  flex_grow : ℚ := 0
  flex_shrink : ℚ := 1
  flex_basis : Dimension := Dimension.Auto
  size : Size Dimension := { width := Dimension.Auto, height := Dimension.Auto }
  min_size : Size Dimension := { width := Dimension.Auto, height := Dimension.Auto }
  max_size : Size Dimension := { width := Dimension.Auto, height := Dimension.Auto }
  aspect : Number := Number.Undefined
  font_size_px : PixelValue := DEFAULT_FONT_SIZE
  line_height : Option ℚ := none
  letter_spacing : Option PixelValue := none
  word_spacing : Option PixelValue := none
  tab_width : Option ℚ := none
deriving DecidableEq

/-- Modelled from the spec: azul_css RectLayout, the resolved layout
properties of one box (the per-property newtype wrappers such as
LayoutWidth are erased: the map_property closures unwrapping them in
lib.rs are identities in this model). Every field is optional; the
default literal with all fields absent is provided for convenience. -/
structure RectLayout where
  display : Option (CssPropertyValue LayoutDisplay) := none
  box_sizing : Option (CssPropertyValue LayoutBoxSizing) := none
  position : Option (CssPropertyValue LayoutPosition) := none
  direction : Option (CssPropertyValue LayoutDirection) := none
  wrap : Option (CssPropertyValue LayoutWrap) := none
  overflow_x : Option (CssPropertyValue LayoutOverflow) := none
  align_items : Option (CssPropertyValue LayoutAlignItems) := none
  align_content : Option (CssPropertyValue LayoutAlignContent) := none
  justify_content : Option (CssPropertyValue LayoutJustifyContent) := none
  left : Option (CssPropertyValue PixelValue) := none
  right : Option (CssPropertyValue PixelValue) := none
  top : Option (CssPropertyValue PixelValue) := none
  bottom : Option (CssPropertyValue PixelValue) := none
  margin_left : Option (CssPropertyValue PixelValue) := none
  margin_right : Option (CssPropertyValue PixelValue) := none
  margin_top : Option (CssPropertyValue PixelValue) := none
  margin_bottom : Option (CssPropertyValue PixelValue) := none
  padding_left : Option (CssPropertyValue PixelValue) := none
  padding_right : Option (CssPropertyValue PixelValue) := none
  padding_top : Option (CssPropertyValue PixelValue) := none
  padding_bottom : Option (CssPropertyValue PixelValue) := none
  border_left_width : Option (CssPropertyValue PixelValue) := none
  border_right_width : Option (CssPropertyValue PixelValue) := none
  border_top_width : Option (CssPropertyValue PixelValue) := none
  border_bottom_width : Option (CssPropertyValue PixelValue) := none
  flex_grow : Option (CssPropertyValue ℚ) := none
  flex_shrink : Option (CssPropertyValue ℚ) := none
  width : Option (CssPropertyValue PixelValue) := none
  height : Option (CssPropertyValue PixelValue) := none
  min_width : Option (CssPropertyValue PixelValue) := none
  min_height : Option (CssPropertyValue PixelValue) := none
  max_width : Option (CssPropertyValue PixelValue) := none
  max_height : Option (CssPropertyValue PixelValue) := none
deriving DecidableEq

/-- Modelled from the spec: azul_css RectStyle, the resolved text-metric
style properties of one box (wrappers erased as in RectLayout). -/
structure RectStyle where
  font_size : Option (CssPropertyValue PixelValue) := none
  line_height : Option (CssPropertyValue ℚ) := none
  letter_spacing : Option (CssPropertyValue PixelValue) := none
  word_spacing : Option (CssPropertyValue PixelValue) := none
  tab_width : Option (CssPropertyValue ℚ) := none
deriving DecidableEq

/-- Modelled from the spec: azul_core DisplayRectangle, carrying the
resolved layout and style properties of one box. -/
structure DisplayRectangle where
  layout : RectLayout := {}
  style : RectStyle := {}
deriving DecidableEq

/-- The helper translate_dimension of the adapter (lib.rs lines
136-151): absent, initial and inherit values become Undefined, auto
stays auto, none becomes zero pixels, and exact values convert px
unchanged, percent passed through, pt by PT_TO_PX and em by
EM_HEIGHT. -/
def translate_dimension : Option (CssPropertyValue PixelValue) → Dimension
  | none => Dimension.Undefined
  | some CssPropertyValue.Auto => Dimension.Auto
  | some CssPropertyValue.None => Dimension.Pixels 0
  | some CssPropertyValue.Initial => Dimension.Undefined
  | some CssPropertyValue.Inherit => Dimension.Undefined
  | some (CssPropertyValue.Exact pv) =>
    match pv.metric with
    | SizeMetric.Px => Dimension.Pixels pv.number
    | SizeMetric.Percent => Dimension.Percent pv.number
    | SizeMetric.Pt => Dimension.Pixels (pv.number * PT_TO_PX)
    | SizeMetric.Em => Dimension.Pixels (pv.number * EM_HEIGHT)

/-- The style adapter: GetStyle::get_style for DisplayRectangle (lib.rs
lines 120-266), a total function from the externally resolved
representation to a Style. -/
def DisplayRectangle.get_style (d : DisplayRectangle) : Style :=
  { display :=
      match d.layout.display with
      | none => Display.Flex
      | some CssPropertyValue.Auto => Display.Flex
      | some CssPropertyValue.None => Display.None
      | some CssPropertyValue.Initial => Display.Flex
      | some CssPropertyValue.Inherit => Display.Flex
      | some (CssPropertyValue.Exact LayoutDisplay.Flex) => Display.Flex
      | some (CssPropertyValue.Exact LayoutDisplay.Inline) => Display.Inline,
    box_sizing :=
      match (unwrapOrDefault layoutBoxSizingDefault d.layout.box_sizing).get_property_or_default layoutBoxSizingDefault with
      | none => BoxSizing.ContentBox
      | some LayoutBoxSizing.ContentBox => BoxSizing.ContentBox
      | some LayoutBoxSizing.BorderBox => BoxSizing.BorderBox,
    position_type :=
      match (unwrapOrDefault layoutPositionDefault d.layout.position).get_property_or_default layoutPositionDefault with
      | some LayoutPosition.Static => PositionType.Relative
      | some LayoutPosition.Relative => PositionType.Relative
      | some LayoutPosition.Absolute => PositionType.Absolute
      | none => PositionType.Relative,
    direction := Direction.LTR,
    flex_direction :=
      match (unwrapOrDefault layoutDirectionDefault d.layout.direction).get_property_or_default layoutDirectionDefault with
      | some LayoutDirection.Row => FlexDirection.Row
      | some LayoutDirection.RowReverse => FlexDirection.RowReverse
      | some LayoutDirection.Column => FlexDirection.Column
      | some LayoutDirection.ColumnReverse => FlexDirection.ColumnReverse
      | none => FlexDirection.Row,
    flex_wrap :=
      match (unwrapOrDefault layoutWrapDefault d.layout.wrap).get_property_or_default layoutWrapDefault with
      | some LayoutWrap.Wrap => FlexWrap.Wrap
      | some LayoutWrap.NoWrap => FlexWrap.NoWrap
      | none => FlexWrap.Wrap,
    overflow :=
      match (unwrapOrDefault layoutOverflowDefault d.layout.overflow_x).get_property_or_default layoutOverflowDefault with
      | some LayoutOverflow.Scroll => Overflow.Scroll
      | some LayoutOverflow.Auto => Overflow.Scroll
      | some LayoutOverflow.Hidden => Overflow.Hidden
      | some LayoutOverflow.Visible => Overflow.Visible
      | none => Overflow.Scroll,
    align_items :=
      match (unwrapOrDefault layoutAlignItemsDefault d.layout.align_items).get_property_or_default layoutAlignItemsDefault with
      | some LayoutAlignItems.Stretch => AlignItems.Stretch
      | some LayoutAlignItems.Center => AlignItems.Center
      | some LayoutAlignItems.Start => AlignItems.FlexStart
      | some LayoutAlignItems.End => AlignItems.FlexEnd
      | none => AlignItems.FlexStart,
    align_content :=
      match (unwrapOrDefault layoutAlignContentDefault d.layout.align_content).get_property_or_default layoutAlignContentDefault with
      | some LayoutAlignContent.Stretch => AlignContent.Stretch
      | some LayoutAlignContent.Center => AlignContent.Center
      | some LayoutAlignContent.Start => AlignContent.FlexStart
      | some LayoutAlignContent.End => AlignContent.FlexEnd
      | some LayoutAlignContent.SpaceBetween => AlignContent.SpaceBetween
      | some LayoutAlignContent.SpaceAround => AlignContent.SpaceAround
      | none => AlignContent.Stretch,
    justify_content :=
      match (unwrapOrDefault layoutJustifyContentDefault d.layout.justify_content).get_property_or_default layoutJustifyContentDefault with
      | some LayoutJustifyContent.Center => JustifyContent.Center
      | some LayoutJustifyContent.Start => JustifyContent.FlexStart
      | some LayoutJustifyContent.End => JustifyContent.FlexEnd
      | some LayoutJustifyContent.SpaceBetween => JustifyContent.SpaceBetween
      | some LayoutJustifyContent.SpaceAround => JustifyContent.SpaceAround
      | some LayoutJustifyContent.SpaceEvenly => JustifyContent.SpaceEvenly
      | none => JustifyContent.FlexStart,
    position :=
      { left := translate_dimension d.layout.left,
        right := translate_dimension d.layout.right,
        top := translate_dimension d.layout.top,
        bottom := translate_dimension d.layout.bottom },
    margin :=
      { left := translate_dimension d.layout.margin_left,
        right := translate_dimension d.layout.margin_right,
        top := translate_dimension d.layout.margin_top,
        bottom := translate_dimension d.layout.margin_bottom },
    padding :=
      { left := translate_dimension d.layout.padding_left,
        right := translate_dimension d.layout.padding_right,
        top := translate_dimension d.layout.padding_top,
        bottom := translate_dimension d.layout.padding_bottom },
    border :=
      { left := translate_dimension d.layout.border_left_width,
        right := translate_dimension d.layout.border_right_width,
        top := translate_dimension d.layout.border_top_width,
        bottom := translate_dimension d.layout.border_bottom_width },
    flex_grow :=
      (((unwrapOrDefault flexGrowDefault d.layout.flex_grow).get_property_or_default flexGrowDefault).getD flexGrowDefault),
    flex_shrink :=
      (((unwrapOrDefault flexShrinkDefault d.layout.flex_shrink).get_property_or_default flexShrinkDefault).getD flexShrinkDefault),
    size :=
      { width := translate_dimension d.layout.width,
        height := translate_dimension d.layout.height },
    min_size :=
      { width := translate_dimension d.layout.min_width,
        height := translate_dimension d.layout.min_height },
    max_size :=
      { width := translate_dimension d.layout.max_width,
        height := translate_dimension d.layout.max_height },
    align_self := AlignSelf.Auto,
    flex_basis := Dimension.Auto,
    aspect := Number.Undefined,
    font_size_px :=
      ((d.style.font_size.bind CssPropertyValue.get_property_owned).getD DEFAULT_FONT_SIZE),
    line_height :=
      (d.style.line_height.bind CssPropertyValue.get_property_owned),
    letter_spacing :=
      (d.style.letter_spacing.bind CssPropertyValue.get_property_owned),
    word_spacing :=
      (d.style.word_spacing.bind CssPropertyValue.get_property_owned),
    tab_width :=
      (d.style.tab_width.bind CssPropertyValue.get_property_owned) }

/-- The GetStyle capability (lib.rs lines 49-51): one method producing a
Style for a box. -/
class GetStyle (α : Type) where
  get_style : α → Style

instance : GetStyle DisplayRectangle := ⟨DisplayRectangle.get_style⟩

/-- Modelled from the spec: azul_core node identity, an opaque index
into the immutable hierarchy (spec section 3). -/
abbrev NodeId := Nat

/-- Modelled from the spec: the distinguished root identity. -/
def NodeId.ZERO : NodeId := 0

/-- Modelled from the spec: one arena entry of the azul_core id_tree,
recording the node's parent/children relationships; only the list of
child indices is needed by the computations verified here. -/
structure HierNode where
  children : List NodeId
deriving DecidableEq

/-- Modelled from the spec: azul_core NodeHierarchy, the caller-owned
immutable arena of parent/children relationships (spec section 3). -/
structure NodeHierarchy where
  nodes : List HierNode
deriving DecidableEq

/-- Modelled from the spec: azul_core NodeDataContainer, an ordered
container with one entry per node identity, aligned to hierarchy
order. -/
structure NodeDataContainer (α : Type) where
  internal : List α
deriving DecidableEq

/-- Auxiliary recursion for NodeDataContainer.transform, mapping each
entry together with its running node identity. -/
def transformFrom (f : α → NodeId → β) : NodeId → List α → List β
  | _, [] => []
  | i, a :: as => f a i :: transformFrom f (i + 1) as

/-- Modelled from the spec: azul_core NodeDataContainer::transform,
mapping every entry together with its node identity. -/
def NodeDataContainer.transform (c : NodeDataContainer α) (f : α → NodeId → β) :
    NodeDataContainer β :=
  ⟨transformFrom f 0 c.internal⟩

/-- Modelled from the spec: 2-D point of the azul_css geometry used by
LayoutRect (finite f32 coordinates as rationals). -/
structure LayoutPoint where
  x : ℚ
  y : ℚ
deriving DecidableEq

/-- Modelled from the spec: 2-D size of the azul_css geometry used by
LayoutRect. -/
structure LayoutSize where
  width : ℚ
  height : ℚ
deriving DecidableEq

/-- Modelled from the spec: azul_css LayoutRect, an origin and a
size. -/
structure LayoutRect where
  origin : LayoutPoint
  size : LayoutSize
deriving DecidableEq

/-- Modelled from the spec: azul_core PositionedRectangle, the per-box
output of the layout algorithm, carrying the box's bounds (spec
section 3). -/
structure PositionedRectangle where
  bounds : LayoutRect
deriving DecidableEq

/-- The text measurement capability (azul_core trait GetTextLayout):
given available width and height constraints, return the natural
content size (spec section 6). It is modelled as a pure function, which
is the claim-level hypothesis that measurement is deterministic for
identical constraints; the caching side effect permitted by the spec is
not observable in the result and is not modelled. -/
class GetTextLayout (α : Type) where
  get_text_layout : α → Size Number → LayoutSize

/-- The per-box content payload RectContent (lib.rs lines 58-65): image
intrinsic pixel dimensions or a measurable text handle. -/
inductive RectContent (α : Type) where
  | Image (w : Nat) (h : Nat)
  | Text (t : α)
deriving DecidableEq

/-- RectContent::is_text (lib.rs lines 69-75). -/
def RectContent.is_text : RectContent α → Bool
  | RectContent.Image _ _ => false
  | RectContent.Text _ => true

/-- RectContent::is_image (lib.rs lines 77-83). -/
def RectContent.is_image : RectContent α → Bool
  | RectContent.Image _ _ => true
  | RectContent.Text _ => false

/-- The aggregate result SolvedUi (lib.rs lines 53-56): one positioned
rectangle per node identity, already translated into the caller's
absolute coordinate space. -/
structure SolvedUi where
  solved_rects : NodeDataContainer PositionedRectangle
deriving DecidableEq

/-- The style-table construction performed by SolvedUi::new (lib.rs
lines 94-104): for every node, take the style source's style and
overwrite its aspect-ratio field, with Defined(w as f32 / h as f32) for
image content and Undefined otherwise. The content table (a BTreeMap in
the source) is modelled as an association list with its lookup. -/
def build_styles [GetStyle T] (display_rects : NodeDataContainer T)
    (rect_contents : List (NodeId × RectContent U)) : NodeDataContainer Style :=
  NodeDataContainer.transform display_rects (fun node node_id =>
    let image_aspect_ratio :=
      match rect_contents.lookup node_id with
      | some (RectContent.Image w h) => Number.Defined (F32.divNat w h)
      | _ => Number.Undefined
    let style := GetStyle.get_style node
    { style with aspect := image_aspect_ratio })

/-- Modelled from the spec: the structural-integrity error with which
the computation fails fast on malformed input (spec section 7): the
recursion-depth guard tripping on a cyclic hierarchy, or a node
identity that is out of range / absent from the hierarchy or style
table. -/
inductive StructuralIntegrityError where
  | depthLimitExceeded
  | invalidNodeId
deriving DecidableEq

/-- Monadic map over Except with explicit structural recursion (used so
that facts about the traversal can be proved by list induction). -/
def mapME (f : α → Except ε β) : List α → Except ε (List β)
  | [] => Except.ok []
  | a :: as =>
    match f a with
    | Except.error e => Except.error e
    | Except.ok b =>
      match mapME f as with
      | Except.error e => Except.error e
      | Except.ok bs => Except.ok (b :: bs)

/-- Modelled from the spec: the structural-integrity check run by the
layout computation before laying out (spec sections 5 and 7): a
depth-guarded traversal from the root that fails fast on an
out-of-range node identity, a node without a style entry, or a
parent/child chain longer than the fuel bound (which a cyclic hierarchy
always produces). -/
def checkNode (h : NodeHierarchy) (numStyles : Nat) :
    Nat → NodeId → Except StructuralIntegrityError Unit
  | 0, _ => Except.error StructuralIntegrityError.depthLimitExceeded
  | fuel + 1, n =>
    match h.nodes[n]? with
    | none => Except.error StructuralIntegrityError.invalidNodeId
    | some node =>
      if n < numStyles then
        (mapME (checkNode h numStyles fuel) node.children).map (fun _ => ())
      else Except.error StructuralIntegrityError.invalidNodeId

/-- Row-family flex directions select the horizontal main axis (spec
section 4.4 step 1). -/
def isRow : FlexDirection → Bool
  | FlexDirection.Row => true
  | FlexDirection.RowReverse => true
  | FlexDirection.Column => false
  | FlexDirection.ColumnReverse => false

/-- Reverse-family flex directions place items in reversed order. -/
def isReverse : FlexDirection → Bool
  | FlexDirection.RowReverse => true
  | FlexDirection.ColumnReverse => true
  | FlexDirection.Row => false
  | FlexDirection.Column => false

/-- Main-axis component of a concrete size. -/
def mainOf (dir : FlexDirection) (sz : LayoutSize) : ℚ :=
  if isRow dir then sz.width else sz.height

/-- Cross-axis component of a concrete size. -/
def crossOf (dir : FlexDirection) (sz : LayoutSize) : ℚ :=
  if isRow dir then sz.height else sz.width

/-- Build a concrete size from main and cross components. -/
def mkAxisSize (dir : FlexDirection) (main cross : ℚ) : LayoutSize :=
  if isRow dir then { width := main, height := cross } else { width := cross, height := main }

/-- Build a point from main and cross coordinates. -/
def mkAxisPoint (dir : FlexDirection) (main cross : ℚ) : LayoutPoint :=
  if isRow dir then { x := main, y := cross } else { x := cross, y := main }

/-- Main-axis component of a tri-state size. -/
def mainN (dir : FlexDirection) (sz : Size Number) : Number :=
  if isRow dir then sz.width else sz.height

/-- Cross-axis component of a tri-state size. -/
def crossN (dir : FlexDirection) (sz : Size Number) : Number :=
  if isRow dir then sz.height else sz.width

/-- Clamp a value to the optional interval given by resolved min-size
and max-size (spec section 4.4 step 5). -/
def clampQ (lo hi : Option ℚ) (v : ℚ) : ℚ :=
  let v1 := match hi with | some b => min v b | none => v
  match lo with | some a => max v1 a | none => v1

/-- Resolve a style's explicit size against a container (spec section
4.4 step 2). -/
def resolveSize (style : Style) (container : Size Number) : Size Number :=
  { width := resolve style.size.width container.width,
    height := resolve style.size.height container.height }

/-- Modelled from the spec: zero, negative and non-finite aspect ratios
normalize to the undefined state instead of propagating into geometry
(spec section 7). -/
def normalizeAspect (n : Number) : Option ℚ :=
  match Number.toQ n with
  | some q => if 0 < q then some q else none
  | none => none

/-- Derive the missing axis of a size from the aspect ratio when
exactly one axis is definite (spec section 4.4 step 2). -/
def applyAspect (ar : Number) (s : Size Number) : Size Number :=
  match normalizeAspect ar with
  | none => s
  | some a =>
    match Number.toQ s.width, Number.toQ s.height with
    | some w, none => { width := Number.definedQ w, height := Number.definedQ (w / a) }
    | none, some hv => { width := Number.definedQ (hv * a), height := Number.definedQ hv }
    | _, _ => s

/-- Total horizontal padding plus border of a box, resolved against the
container width. -/
def horizontalExtra (style : Style) (container : Size Number) : ℚ :=
  Number.get_or (resolve style.padding.left container.width) 0
  + Number.get_or (resolve style.padding.right container.width) 0
  + Number.get_or (resolve style.border.left container.width) 0
  + Number.get_or (resolve style.border.right container.width) 0

/-- Total vertical padding plus border of a box (percentages resolve
against the container width, as in CSS). -/
def verticalExtra (style : Style) (container : Size Number) : ℚ :=
  Number.get_or (resolve style.padding.top container.width) 0
  + Number.get_or (resolve style.padding.bottom container.width) 0
  + Number.get_or (resolve style.border.top container.width) 0
  + Number.get_or (resolve style.border.bottom container.width) 0

/-- Content-box size of a box: its resolved size (with aspect ratio
applied) minus padding and border; an indefinite axis stays
indefinite, so that percentages of descendants resolve to Undefined
(spec section 3). -/
def innerSize (style : Style) (container : Size Number) : Size Number :=
  let own := applyAspect style.aspect (resolveSize style container)
  { width := Number.sub own.width (Number.definedQ (horizontalExtra style container)),
    height := Number.sub own.height (Number.definedQ (verticalExtra style container)) }

/-- Offset of the content box inside the box (left/top padding plus
border). -/
def padTopLeft (style : Style) (container : Size Number) : LayoutPoint :=
  { x := Number.get_or (resolve style.padding.left container.width) 0
         + Number.get_or (resolve style.border.left container.width) 0,
    y := Number.get_or (resolve style.padding.top container.width) 0
         + Number.get_or (resolve style.border.top container.width) 0 }

/-- One output entry of the measurement pass: a node identity together
with its rectangle, relative to the subtree root. -/
abbrev Entry := NodeId × LayoutRect

/-- Shift a list of entries by a relative origin (sizes untouched). -/
def shiftEntries (p : LayoutPoint) (l : List Entry) : List Entry :=
  l.map (fun e =>
    (e.1, { origin := { x := e.2.origin.x + p.x, y := e.2.origin.y + p.y }, size := e.2.size }))

/-- Clamp an output size to be non-negative on both axes ("negative
computed sizes clamp to 0", spec section 4.4 edge policy). -/
def clamp0Size (sz : LayoutSize) : LayoutSize :=
  { width := max 0 sz.width, height := max 0 sz.height }

/-- Final assembly of a node's measurement result: its own clamped
rectangle at the subtree origin followed by the placed entries of the
children, each shifted by its relative origin. -/
def finishNode (n : NodeId) (sz : LayoutSize) (placed : List (LayoutPoint × List Entry)) :
    LayoutSize × List Entry :=
  let sz0 := clamp0Size sz
  (sz0, (n, { origin := { x := 0, y := 0 }, size := sz0 })
        :: placed.flatMap (fun pe => shiftEntries pe.1 pe.2))

/-- Data gathered for one in-flow child after the base-size measurement
pass: its identity, style, and natural (content-driven) size. -/
structure ChildInfo where
  id : NodeId
  style : Style
  natural : LayoutSize

/-- Base main-axis size of a child: resolved flex-basis, else resolved
explicit size, else intrinsic content size (spec section 4.4 step 2). -/
def baseMain (dir : FlexDirection) (inner : Size Number) (ci : ChildInfo) : ℚ :=
  match Number.toQ (resolve ci.style.flex_basis (mainN dir inner)) with
  | some v => v
  | none =>
    match Number.toQ (resolve (if isRow dir then ci.style.size.width else ci.style.size.height)
        (mainN dir inner)) with
    | some v => v
    | none => mainOf dir ci.natural

/-- Resolved main-axis min/max bounds of a child. -/
def minMaxMain (dir : FlexDirection) (inner : Size Number) (ci : ChildInfo) :
    Option ℚ × Option ℚ :=
  (Number.toQ (resolve (if isRow dir then ci.style.min_size.width else ci.style.min_size.height)
      (mainN dir inner)),
   Number.toQ (resolve (if isRow dir then ci.style.max_size.width else ci.style.max_size.height)
      (mainN dir inner)))

/-- Distribute positive free space proportionally to flex-grow (items
with factor 0 unchanged; spec section 4.4 step 4). -/
def growTargets (free : ℚ) (factors bases : List ℚ) : List ℚ :=
  let total := factors.sum
  if total ≤ 0 then bases
  else (bases.zip factors).map (fun p => p.1 + free * p.2 / total)

/-- Distribute negative free space proportionally to scaled shrink
(flex-shrink times base size), never driving an item below 0 (spec
section 4.4 step 4). -/
def shrinkTargets (free : ℚ) (factors bases : List ℚ) : List ℚ :=
  let scaled := (bases.zip factors).map (fun p => p.1 * p.2)
  let total := scaled.sum
  if total ≤ 0 then bases
  else (bases.zip scaled).map (fun p => max 0 (p.1 + free * p.2 / total))

/-- Iterative clamp-and-redistribute (spec section 4.4 step 5): clamp
every target to its bounds; if clamping changed the sum, spread the
residual delta equally over the items the clamp left unchanged, and
iterate until stable, no item remains unclamped, or the iteration bound
runs out. -/
def clampRedistribute : Nat → List (Option ℚ × Option ℚ) → List ℚ → List ℚ
  | 0, bounds, targets => (targets.zip bounds).map (fun p => clampQ p.2.1 p.2.2 p.1)
  | k + 1, bounds, targets =>
    let clamped := (targets.zip bounds).map (fun p => clampQ p.2.1 p.2.2 p.1)
    let delta := targets.sum - clamped.sum
    let freeCount := ((targets.zip clamped).filter (fun p => decide (p.1 = p.2))).length
    if delta = 0 ∨ freeCount = 0 then clamped
    else
      clampRedistribute k bounds
        ((targets.zip clamped).map
          (fun p => if p.1 = p.2 then p.1 + delta / (freeCount : ℚ) else p.2))

/-- Resolve a child's align-self, falling back to the container's
align-items (spec section 4.4 step 6). -/
def resolvedAlign (parent child : Style) : AlignSelf :=
  match child.align_self with
  | AlignSelf.Auto =>
    match parent.align_items with
    | AlignItems.FlexStart => AlignSelf.FlexStart
    | AlignItems.FlexEnd => AlignSelf.FlexEnd
    | AlignItems.Center => AlignSelf.Center
    | AlignItems.Baseline => AlignSelf.Baseline
    | AlignItems.Stretch => AlignSelf.Stretch
  | a => a

/-- Cross extent of the single line: the definite inner cross size, or
the largest natural child cross size. -/
def lineCrossOf (dir : FlexDirection) (inner : Size Number) (infos : List ChildInfo) : ℚ :=
  Number.get_or (crossN dir inner)
    ((infos.map (fun ci => crossOf dir ci.natural)).foldl max 0)

/-- Cross-axis size of an in-flow child: explicit resolved size if any,
else the full line for stretch, else the natural size; clamped to the
child's cross min/max (spec section 4.4 step 6). -/
def crossSizeOf (dir : FlexDirection) (inner : Size Number) (parent : Style)
    (ci : ChildInfo) (lineCross : ℚ) : ℚ :=
  let explicit := Number.toQ
    (resolve (if isRow dir then ci.style.size.height else ci.style.size.width) (crossN dir inner))
  let v :=
    match explicit with
    | some v => v
    | none =>
      if resolvedAlign parent ci.style = AlignSelf.Stretch then lineCross
      else crossOf dir ci.natural
  clampQ
    (Number.toQ (resolve (if isRow dir then ci.style.min_size.height else ci.style.min_size.width)
      (crossN dir inner)))
    (Number.toQ (resolve (if isRow dir then ci.style.max_size.height else ci.style.max_size.width)
      (crossN dir inner)))
    v

/-- Leading offset and inter-item gap distributing the leftover
main-axis space per justify-content (spec section 4.4 step 7). -/
def justifyOffsets (jc : JustifyContent) (leftover : ℚ) (k : Nat) : ℚ × ℚ :=
  match jc with
  | JustifyContent.FlexStart => (0, 0)
  | JustifyContent.FlexEnd => (leftover, 0)
  | JustifyContent.Center => (leftover / 2, 0)
  | JustifyContent.SpaceBetween => (0, if k ≤ 1 then 0 else leftover / ((k : ℚ) - 1))
  | JustifyContent.SpaceAround =>
    if k = 0 then (0, 0) else (leftover / (2 * (k : ℚ)), leftover / (k : ℚ))
  | JustifyContent.SpaceEvenly => (leftover / ((k : ℚ) + 1), leftover / ((k : ℚ) + 1))

/-- Cross-axis offset of a child inside the line per its resolved
alignment. -/
def alignOffset (a : AlignSelf) (lineCross childCross : ℚ) : ℚ :=
  match a with
  | AlignSelf.FlexEnd => lineCross - childCross
  | AlignSelf.Center => (lineCross - childCross) / 2
  | _ => 0

/-- Sequential main-axis positions: item i sits at the leading offset
plus the preceding items' sizes plus i inter-item gaps. -/
def mainPositions (lead between : ℚ) (mains : List ℚ) : List ℚ :=
  (List.range mains.length).map
    (fun i => lead + (mains.take i).sum + (i : ℚ) * between)

/-- Relative origins of the in-flow children: justify-content along the
main axis (reverse directions place in reversed order), alignment along
the cross axis, offset by the parent's content-box origin. -/
def flowOrigins (dir : FlexDirection) (parent : Style) (inner : Size Number)
    (padLT : LayoutPoint) (infos : List ChildInfo) (finals : List LayoutSize) :
    List LayoutPoint :=
  let mains := finals.map (mainOf dir)
  let lineCross := lineCrossOf dir inner infos
  let containerMain := Number.get_or (mainN dir inner) mains.sum
  let leftover := containerMain - mains.sum
  let lb := justifyOffsets parent.justify_content leftover finals.length
  let mpos :=
    if isReverse dir then (mainPositions lb.1 lb.2 mains.reverse).reverse
    else mainPositions lb.1 lb.2 mains
  ((infos.zip finals).zip mpos).map (fun p =>
    let a := alignOffset (resolvedAlign parent p.1.1.style) lineCross (crossOf dir p.1.2)
    let ap := mkAxisPoint dir p.2 a
    { x := padLT.x + ap.x, y := padLT.y + ap.y })

/-- Plan for the placement pass: per in-flow child its info, its final
(distributed) size, and its relative origin. -/
def zip3Plan (infos : List ChildInfo) (finals : List LayoutSize) (origins : List LayoutPoint) :
    List (ChildInfo × LayoutSize × LayoutPoint) :=
  (infos.zip (finals.zip origins)).map (fun p => (p.1, p.2.1, p.2.2))

/-- Modelled from the spec: the per-container child layout of the
algorithm (spec section 4.4 steps 1-10): look up child styles, measure
in-flow children bottom-up for base sizes, distribute free space by
grow/shrink, clamp and redistribute, size the cross axis, place per
justify-content and alignment, re-lay each in-flow child at its
distributed size, and handle absolutely positioned and display:none
children outside the flow. The recursive descent is abstracted by the
recur argument. Returns the content-driven size and, per child, its
relative origin with its subtree entries. -/
def layChildren (styles : NodeDataContainer Style)
    (recur : NodeId → Size Number → Option LayoutSize →
      Except StructuralIntegrityError (LayoutSize × List Entry))
    (parent : Style) (children : List NodeId) (inner : Size Number) (padLT : LayoutPoint) :
    Except StructuralIntegrityError (LayoutSize × List (LayoutPoint × List Entry)) :=
  match mapME (fun c =>
      match styles.internal[c]? with
      | some s => Except.ok (c, s)
      | none => Except.error StructuralIntegrityError.invalidNodeId) children with
  | Except.error e => Except.error e
  | Except.ok withStyles =>
    let hidden := withStyles.filter (fun cs => decide (cs.2.display = Display.None))
    let shown := withStyles.filter (fun cs => decide (cs.2.display ≠ Display.None))
    let absolutes := shown.filter (fun cs => decide (cs.2.position_type = PositionType.Absolute))
    let flow := shown.filter (fun cs => decide (cs.2.position_type ≠ PositionType.Absolute))
    let dir := parent.flex_direction
    match mapME (fun cs =>
        (recur cs.1 inner none).map (fun r => ChildInfo.mk cs.1 cs.2 r.1)) flow with
    | Except.error e => Except.error e
    | Except.ok infos =>
      let bases := infos.map (baseMain dir inner)
      let bnds := infos.map (minMaxMain dir inner)
      let targets :=
        match Number.toQ (mainN dir inner) with
        | none => clampRedistribute 0 bnds bases
        | some m =>
          let free := m - bases.sum
          let t0 :=
            if 0 < free then
              growTargets free (infos.map (fun (ci : ChildInfo) => ci.style.flex_grow)) bases
            else if free < 0 then
              shrinkTargets free (infos.map (fun (ci : ChildInfo) => ci.style.flex_shrink)) bases
            else bases
          clampRedistribute (infos.length + 1) bnds t0
      let lineCross := lineCrossOf dir inner infos
      let crosses := infos.map (fun ci => crossSizeOf dir inner parent ci lineCross)
      let finals := (targets.zip crosses).map (fun (p : ℚ × ℚ) => mkAxisSize dir p.1 p.2)
      let origins := flowOrigins dir parent inner padLT infos finals
      match mapME (fun pl =>
          (recur pl.1.id inner (some pl.2.1)).map (fun r => (pl.2.2, r.2)))
          (zip3Plan infos finals origins) with
      | Except.error e => Except.error e
      | Except.ok placedFlow =>
        match mapME (fun cs =>
            (recur cs.1 inner none).map (fun r =>
              (({ x := padLT.x + Number.get_or (resolve cs.2.position.left inner.width) 0,
                  y := padLT.y + Number.get_or (resolve cs.2.position.top inner.height) 0 } :
                  LayoutPoint), r.2)))
            absolutes with
        | Except.error e => Except.error e
        | Except.ok placedAbs =>
          match mapME (fun cs =>
              (recur cs.1 inner none).map
                (fun r => (({ x := 0, y := 0 } : LayoutPoint), r.2))) hidden with
          | Except.error e => Except.error e
          | Except.ok placedHidden =>
            Except.ok (mkAxisSize dir targets.sum lineCross,
              placedFlow ++ placedAbs ++ placedHidden)

/-- Final size of a node: the forced size from the parent's
distribution if any; otherwise the resolved explicit size (with aspect
ratio applied), falling back to the content size plus padding and
border, clamped to min/max (spec section 4.4 steps 2 and 5). -/
def nodeSize (style : Style) (container : Size Number) (forced : Option LayoutSize)
    (content : LayoutSize) : LayoutSize :=
  match forced with
  | some sz => sz
  | none =>
    let own := applyAspect style.aspect (resolveSize style container)
    let w := Number.get_or own.width (content.width + horizontalExtra style container)
    let hv := Number.get_or own.height (content.height + verticalExtra style container)
    { width := clampQ (Number.toQ (resolve style.min_size.width container.width))
        (Number.toQ (resolve style.max_size.width container.width)) w,
      height := clampQ (Number.toQ (resolve style.min_size.height container.height))
        (Number.toQ (resolve style.max_size.height container.height)) hv }

/-- Intrinsic size of leaf content: image pixel dimensions, or the text
measurement capability invoked with the current constraints (spec
section 4.4 step 2). -/
def contentSizeOf [GetTextLayout U] (c : RectContent U) (inner : Size Number) : LayoutSize :=
  match c with
  | RectContent.Image w h => { width := (w : ℚ), height := (h : ℚ) }
  | RectContent.Text t => GetTextLayout.get_text_layout t inner

/-- Modelled from the spec: the recursive measurement-and-placement
traversal of the layout algorithm (spec section 4.4), guarded by a
recursion-depth fuel (spec sections 5 and 7). For a node it resolves
its style, lays out its children via layChildren, derives its own size
(content table entry taking precedence over child-driven content size),
and emits its clamped rectangle together with the children's shifted
entries. display:none nodes become zero-sized leaves. -/
def measure [GetTextLayout U] (h : NodeHierarchy) (styles : NodeDataContainer Style)
    (contents : List (NodeId × RectContent U)) :
    Nat → NodeId → Size Number → Option LayoutSize →
      Except StructuralIntegrityError (LayoutSize × List Entry)
  | 0, _, _, _ => Except.error StructuralIntegrityError.depthLimitExceeded
  | fuel + 1, n, container, forced =>
    match styles.internal[n]?, h.nodes[n]? with
    | some style, some node =>
      if style.display = Display.None then
        Except.ok (finishNode n { width := 0, height := 0 } [])
      else
        (layChildren styles (measure h styles contents fuel) style node.children
            (innerSize style container) (padTopLeft style container)).map
          (fun r =>
            let content :=
              match contents.lookup n with
              | some c => contentSizeOf c (innerSize style container)
              | none => r.1
            finishNode n (nodeSize style container forced content) r.2)
    | _, _ => Except.error StructuralIntegrityError.invalidNodeId

/-- Fill the output arena: one rectangle per node identity, zero-sized
for nodes the traversal did not reach, and the traversal's rectangle
for each emitted entry. -/
def fillRects (n : Nat) (entries : List Entry) : List PositionedRectangle :=
  entries.foldl (fun acc e => acc.set e.1 ⟨e.2⟩)
    (List.replicate n
      ⟨{ origin := { x := 0, y := 0 }, size := { width := 0, height := 0 } }⟩)

/-- Modelled from the spec: the layout algorithm algo::compute (module
algo is not under src/), with the contract of spec section 4.4: given
the root identity, the hierarchy, one Style per box, the content table
and the container bounds size, produce a positioned rectangle per box,
failing fast with a structural-integrity error on malformed input (spec
section 7). -/
def algo.compute [GetTextLayout U] (root : NodeId) (node_hierarchy : NodeHierarchy)
    (styles : NodeDataContainer Style) (rect_contents : List (NodeId × RectContent U))
    (size : LayoutSize) : Except StructuralIntegrityError (NodeDataContainer PositionedRectangle) :=
  match checkNode node_hierarchy styles.internal.length (node_hierarchy.nodes.length + 1) root with
  | Except.error e => Except.error e
  | Except.ok _ =>
    match measure node_hierarchy styles rect_contents (node_hierarchy.nodes.length + 1) root
        { width := Number.definedQ size.width, height := Number.definedQ size.height } none with
    | Except.error e => Except.error e
    | Except.ok r => Except.ok ⟨fillRects styles.internal.length r.2⟩

/-- The facade SolvedUi::new (lib.rs lines 86-118): build the style
table (injecting the image aspect ratio), run the algorithm against the
bounds size only, then offset every solved rectangle by the origin of
the bounds. The algorithm's caller-contract fault on malformed input is
the Except error. -/
def SolvedUi.new [GetStyle T] [GetTextLayout U] (bounds : LayoutRect)
    (node_hierarchy : NodeHierarchy) (display_rects : NodeDataContainer T)
    (rect_contents : List (NodeId × RectContent U)) :
    Except StructuralIntegrityError SolvedUi :=
  (algo.compute NodeId.ZERO node_hierarchy (build_styles display_rects rect_contents)
      rect_contents bounds.size).map
    (fun solved =>
      { solved_rects := ⟨solved.internal.map (fun rect =>
          { bounds := { origin := { x := rect.bounds.origin.x + bounds.origin.x,
                                    y := rect.bounds.origin.y + bounds.origin.y },
                        size := rect.bounds.size } })⟩ })

/-- The translation operator of the translation-invariance claim:
shift every solved rectangle's origin by (dx, dy). -/
def SolvedUi.translate (ui : SolvedUi) (dx dy : ℚ) : SolvedUi :=
  ⟨⟨ui.solved_rects.internal.map (fun rect =>
    { bounds := { origin := { x := rect.bounds.origin.x + dx, y := rect.bounds.origin.y + dy },
                  size := rect.bounds.size } })⟩⟩

/-- A parent/child chain in the hierarchy: each node after the first is
a child of its predecessor. -/
inductive IsPath (h : NodeHierarchy) : List NodeId → Prop where
  | single (n : NodeId) : IsPath h [n]
  | cons (n m : NodeId) (rest : List NodeId)
      (hstep : ∃ node, h.nodes[n]? = some node ∧ m ∈ node.children)
      (htail : IsPath h (m :: rest)) : IsPath h (n :: m :: rest)

/-- A node identity is valid when it is in range of both the hierarchy
arena and the style table (the spec invariant that every node identity
present in the hierarchy has exactly one Style entry, spec section 3). -/
def ValidNode (h : NodeHierarchy) (numStyles : Nat) (n : NodeId) : Prop :=
  n < h.nodes.length ∧ n < numStyles

/-- Malformed input in the sense of spec section 7, relative to a root:
some parent/child chain from the root reaches a node identity that is
out of range or absent from the style table, or some chain from the
root revisits a node (a cyclic parent/child relationship). -/
def MalformedInput (h : NodeHierarchy) (styles : NodeDataContainer Style) (root : NodeId) : Prop :=
  (∃ p, IsPath h (root :: p) ∧
    ¬ ValidNode h styles.internal.length ((root :: p).getLast (List.cons_ne_nil root p))) ∨
  (∃ p, IsPath h (root :: p) ∧ ¬ (root :: p).Nodup)

/-- Concatenation of k copies of a list (used to pump a cycle into an
arbitrarily long parent/child chain). -/
def repList (c : List NodeId) : Nat → List NodeId
  | 0 => []
  | k + 1 => c ++ repList c k

/-- A trivial text measurement capability used for concrete witness
inputs. -/
instance : GetTextLayout Unit := ⟨fun _ _ => { width := 0, height := 0 }⟩

/-- Witness fixture: a display rectangle with every property absent. -/
def emptyDisplayRectangle : DisplayRectangle := {}

/-- Witness fixture: a single-node hierarchy (the root, no children). -/
def oneNodeHierarchy : NodeHierarchy := ⟨[⟨[]⟩]⟩

/-- Witness fixture: the style source table holding the empty display
rectangle for the single node. -/
def oneNodeRects : NodeDataContainer DisplayRectangle := ⟨[emptyDisplayRectangle]⟩

/-- Witness fixture: content table mapping the root to a degenerate
image with zero intrinsic height. -/
def imageContent10 : List (NodeId × RectContent Unit) := [(0, RectContent.Image 1 0)]

/-- Witness fixture: content table mapping the root to a 100 by 50
image. -/
def imageContent100x50 : List (NodeId × RectContent Unit) := [(0, RectContent.Image 100 50)]

/-- Witness fixture: content table mapping the root to text content. -/
def textContentUnit : List (NodeId × RectContent Unit) := [(0, RectContent.Text ())]

/-- Witness fixture: the empty content table. -/
def noContent : List (NodeId × RectContent Unit) := []

/-- Witness fixture: a one-node hierarchy whose root lists itself as a
child (a cyclic parent/child relationship). -/
def cyclicHierarchy : NodeHierarchy := ⟨[⟨[0]⟩]⟩

/-- Witness fixture: a style table with one default style. -/
def oneStyle : NodeDataContainer Style := ⟨[{}]⟩

/-- Witness fixture: bounds with a nonzero origin. -/
def witnessBounds : LayoutRect :=
  { origin := { x := 5, y := 7 }, size := { width := 100, height := 50 } }

/-- Witness fixture: the solved result of laying out the single default
node inside witnessBounds. -/
def oneNodeSolved : SolvedUi :=
  ⟨⟨[{ bounds := { origin := { x := 5, y := 7 }, size := { width := 0, height := 0 } } }]⟩⟩

/-- Witness fixture: the style that the adapter produces for the
all-absent display rectangle (verified by evaluation below). -/
def leafStyle : Style :=
  { display := Display.Flex, box_sizing := BoxSizing.ContentBox,
    position_type := PositionType.Relative, direction := Direction.LTR,
    flex_direction := FlexDirection.Row, flex_wrap := FlexWrap.NoWrap,
    overflow := Overflow.Scroll, align_items := AlignItems.Stretch,
    align_self := AlignSelf.Auto, align_content := AlignContent.Stretch,
    justify_content := JustifyContent.FlexStart,
    position := { left := Dimension.Undefined, right := Dimension.Undefined,
                  top := Dimension.Undefined, bottom := Dimension.Undefined },
    margin := { left := Dimension.Undefined, right := Dimension.Undefined,
                top := Dimension.Undefined, bottom := Dimension.Undefined },
    padding := { left := Dimension.Undefined, right := Dimension.Undefined,
                 top := Dimension.Undefined, bottom := Dimension.Undefined },
    border := { left := Dimension.Undefined, right := Dimension.Undefined,
                top := Dimension.Undefined, bottom := Dimension.Undefined },
    flex_grow := 0, flex_shrink := 1, flex_basis := Dimension.Auto,
    size := { width := Dimension.Undefined, height := Dimension.Undefined },
    min_size := { width := Dimension.Undefined, height := Dimension.Undefined },
    max_size := { width := Dimension.Undefined, height := Dimension.Undefined },
    aspect := Number.Undefined, font_size_px := DEFAULT_FONT_SIZE,
    line_height := none, letter_spacing := none, word_spacing := none, tab_width := none }

/-- Decidable equality of Except results, used to evaluate the
computation on concrete witness inputs. -/
instance [DecidableEq ε] [DecidableEq α] : DecidableEq (Except ε α)
  | Except.error e, Except.error e' =>
    if h : e = e' then isTrue (h ▸ rfl) else isFalse (fun hc => h (Except.error.inj hc))
  | Except.error _, Except.ok _ => isFalse (fun hc => Except.noConfusion hc)
  | Except.ok _, Except.error _ => isFalse (fun hc => Except.noConfusion hc)
  | Except.ok a, Except.ok b =>
    if h : a = b then isTrue (h ▸ rfl) else isFalse (fun hc => h (Except.ok.inj hc))

/-- Indexing a transformFrom result: entry n is the original entry n
mapped together with its shifted index. -/
theorem transformFrom_getElem? (f : α → NodeId → β) :
    ∀ (i n : Nat) (l : List α), (transformFrom f i l)[n]? = l[n]?.map (fun a => f a (i + n)) := by
  intro i n l
  induction l generalizing i n with
  | nil => simp [transformFrom]
  | cons a as ih =>
    cases n with
    | zero => simp [transformFrom]
    | succ n =>
      simp only [transformFrom, List.getElem?_cons_succ]
      rw [ih (i + 1) n]
      have : i + 1 + n = i + (n + 1) := by omega
      rw [this]

/-- Shared helper: the style table built by SolvedUi::new at a valid
node identity is that node's adapter style with the aspect-ratio field
overwritten by the image aspect ratio of the node's content. -/
theorem build_styles_get [GetStyle T] (d : NodeDataContainer T)
    (c : List (NodeId × RectContent U)) (n : Nat) (hn : n < d.internal.length) :
    (build_styles d c).internal[n]? =
      some { GetStyle.get_style d.internal[n] with
             aspect :=
               match c.lookup n with
               | some (RectContent.Image w h) => Number.Defined (F32.divNat w h)
               | _ => Number.Undefined } := by
  unfold build_styles NodeDataContainer.transform
  rw [transformFrom_getElem?, List.getElem?_eq_getElem hn]
  simp

/-- C10: for every node, the style passed to the layout algorithm by
SolvedUi::new equals the style source's style in every field except the
aspect-ratio field, which is unconditionally overwritten: Defined(w/h),
computed in f32 arithmetic, when the node's content is Image(w, h), and
Undefined otherwise. -/
theorem build_styles_frame [GetStyle T] (d : NodeDataContainer T)
    (c : List (NodeId × RectContent U)) (n : Nat) (hn : n < d.internal.length) :
    (build_styles d c).internal[n]? =
      some { GetStyle.get_style d.internal[n] with
             aspect :=
               match c.lookup n with
               | some (RectContent.Image w h) => Number.Defined (F32.divNat w h)
               | _ => Number.Undefined } :=
  build_styles_get d c n hn

/-- Witness for C10 at a concrete input: a single node with text
content keeps its adapter style and gets aspect ratio Undefined. -/
theorem build_styles_frame_witness :
    (build_styles oneNodeRects textContentUnit).internal[0]? =
      some { DisplayRectangle.get_style emptyDisplayRectangle with aspect := Number.Undefined } := by
  rw [build_styles_frame oneNodeRects textContentUnit 0 (by decide)]
  decide

/-- C4 counterexample: for a node whose content is Image(1, 0) the
aspect ratio injected by SolvedUi::new is Defined(positive infinity),
not Undefined as the claim states. -/
theorem build_styles_zero_height_counterexample :
    ((build_styles oneNodeRects imageContent10).internal[0]?).map Style.aspect
        = some (Number.Defined F32.inf)
      ∧ Number.Defined F32.inf ≠ Number.Undefined := by
  constructor
  · decide
  · decide

/-- C4 amended: for image content with w = 0 or h = 0 the injected
aspect ratio is Defined(w/h) as computed in f32 arithmetic — Defined
NaN for 0/0, Defined positive infinity for w/0 with w positive, and
Defined 0 for 0/h with h positive — rather than Undefined; the
non-finite value is propagated into the style. -/
theorem build_styles_aspect_degenerate [GetStyle T] (d : NodeDataContainer T)
    (c : List (NodeId × RectContent U)) (n w h : Nat) (hn : n < d.internal.length)
    (hc : c.lookup n = some (RectContent.Image w h)) (hwh : w = 0 ∨ h = 0) :
    ((build_styles d c).internal[n]?).map Style.aspect
        = some (Number.Defined (F32.divNat w h))
      ∧ (h = 0 → w = 0 → F32.divNat w h = F32.nan)
      ∧ (h = 0 → w ≠ 0 → F32.divNat w h = F32.inf)
      ∧ (w = 0 → h ≠ 0 → F32.divNat w h = F32.fin 0) := by
  refine ⟨?_, ?_, ?_, ?_⟩
  · rw [build_styles_get d c n hn]
    simp [hc]
  · intro h0 w0; simp [F32.divNat, h0, w0]
  · intro h0 w0; simp [F32.divNat, h0, w0]
  · intro w0 h0; simp [F32.divNat, h0, w0]

/-- Witness for C4 at a concrete input: Image(1, 0) yields Defined
positive infinity. -/
theorem build_styles_aspect_degenerate_witness :
    ((build_styles oneNodeRects imageContent10).internal[0]?).map Style.aspect
        = some (Number.Defined (F32.divNat 1 0))
      ∧ ((0 : Nat) = 0 → (1 : Nat) = 0 → F32.divNat 1 0 = F32.nan)
      ∧ ((0 : Nat) = 0 → (1 : Nat) ≠ 0 → F32.divNat 1 0 = F32.inf)
      ∧ ((1 : Nat) = 0 → (0 : Nat) ≠ 0 → F32.divNat 1 0 = F32.fin 0) :=
  build_styles_aspect_degenerate oneNodeRects imageContent10 0 1 0 (by decide) (by decide)
    (Or.inr rfl)

/-- C5: for image content with positive intrinsic dimensions the
injected aspect ratio is Defined(w/h). -/
theorem build_styles_aspect_image [GetStyle T] (d : NodeDataContainer T)
    (c : List (NodeId × RectContent U)) (n w h : Nat) (hn : n < d.internal.length)
    (hc : c.lookup n = some (RectContent.Image w h)) (hw : 0 < w) (hh : 0 < h) :
    ((build_styles d c).internal[n]?).map Style.aspect
      = some (Number.Defined (F32.fin ((w : ℚ) / (h : ℚ)))) := by
  rw [build_styles_get d c n hn]
  have hh0 : h ≠ 0 := by omega
  simp [hc, F32.divNat, hh0]

/-- Witness for C5 at the spec's concrete input: Image(100, 50) yields
aspect ratio Defined(2). -/
theorem build_styles_aspect_image_witness :
    ((build_styles oneNodeRects imageContent100x50).internal[0]?).map Style.aspect
      = some (Number.Defined (F32.fin 2)) := by
  rw [build_styles_aspect_image oneNodeRects imageContent100x50 0 100 50 (by decide) (by decide)
    (by decide) (by decide)]
  norm_num

/-- C6: the adapter is a total function: every display rectangle,
whatever the combination of absent or tri-state property values, maps
to a style, with absent values going to the fixed per-property defaults
(flex display, content-box sizing, relative position, undefined
dimensions and offsets, zero flex-grow) and the direction fixed to
LTR. -/
theorem get_style_total (d : DisplayRectangle) :
    ∃ s : Style, DisplayRectangle.get_style d = s ∧
      (d.layout.display = none → s.display = Display.Flex) ∧
      (d.layout.box_sizing = none → s.box_sizing = BoxSizing.ContentBox) ∧
      (d.layout.position = none → s.position_type = PositionType.Relative) ∧
      (d.layout.width = none → s.size.width = Dimension.Undefined) ∧
      (d.layout.left = none → s.position.left = Dimension.Undefined) ∧
      (d.layout.flex_grow = none → s.flex_grow = 0) ∧
      s.direction = Direction.LTR := by
  refine ⟨DisplayRectangle.get_style d, rfl, ?_, ?_, ?_, ?_, ?_, ?_, rfl⟩ <;>
    intro hnone <;>
    simp [DisplayRectangle.get_style, hnone, unwrapOrDefault, layoutBoxSizingDefault,
      layoutPositionDefault, flexGrowDefault, CssPropertyValue.get_property_or_default,
      translate_dimension]

/-- Witness for C6 at the all-absent display rectangle. -/
theorem get_style_total_witness :
    ∃ s : Style, DisplayRectangle.get_style emptyDisplayRectangle = s ∧
      (emptyDisplayRectangle.layout.display = none → s.display = Display.Flex) ∧
      (emptyDisplayRectangle.layout.box_sizing = none → s.box_sizing = BoxSizing.ContentBox) ∧
      (emptyDisplayRectangle.layout.position = none → s.position_type = PositionType.Relative) ∧
      (emptyDisplayRectangle.layout.width = none → s.size.width = Dimension.Undefined) ∧
      (emptyDisplayRectangle.layout.left = none → s.position.left = Dimension.Undefined) ∧
      (emptyDisplayRectangle.layout.flex_grow = none → s.flex_grow = 0) ∧
      s.direction = Direction.LTR :=
  get_style_total emptyDisplayRectangle

/-- C7: the unit conversion of the adapter maps px values unchanged, pt
values by the factor 96/72, em values by the root font height, and
percent values through unresolved. -/
theorem translate_dimension_units (v : ℚ) :
    translate_dimension (some (CssPropertyValue.Exact { metric := SizeMetric.Px, number := v }))
        = Dimension.Pixels v
      ∧ translate_dimension (some (CssPropertyValue.Exact { metric := SizeMetric.Pt, number := v }))
        = Dimension.Pixels (v * PT_TO_PX)
      ∧ PT_TO_PX = 96 / 72
      ∧ translate_dimension (some (CssPropertyValue.Exact { metric := SizeMetric.Em, number := v }))
        = Dimension.Pixels (v * EM_HEIGHT)
      ∧ translate_dimension (some (CssPropertyValue.Exact { metric := SizeMetric.Percent, number := v }))
        = Dimension.Percent v :=
  ⟨rfl, rfl, rfl, rfl, rfl⟩

/-- C8: the adapter never forwards per-box align-self or flex-basis:
both are always their defaults. -/
theorem get_style_align_self_flex_basis (d : DisplayRectangle) :
    (DisplayRectangle.get_style d).align_self = AlignSelf.Auto
      ∧ (DisplayRectangle.get_style d).flex_basis = Dimension.Auto :=
  ⟨rfl, rfl⟩

/-- C1: translation invariance of the facade: laying out with bounds at
the origin and shifting every solved rectangle by (dx, dy) equals
laying out directly with bounds at (dx, dy); the layout algorithm
receives only the bounds size, and the shift is the single origin
offset applied by SolvedUi::new after the algorithm returns. -/
theorem new_translation_invariance [GetStyle T] [GetTextLayout U] (dx dy : ℚ)
    (sz : LayoutSize) (node_hierarchy : NodeHierarchy) (display_rects : NodeDataContainer T)
    (rect_contents : List (NodeId × RectContent U)) :
    (SolvedUi.new { origin := { x := 0, y := 0 }, size := sz }
        node_hierarchy display_rects rect_contents).map (fun ui => SolvedUi.translate ui dx dy)
      = SolvedUi.new { origin := { x := dx, y := dy }, size := sz }
          node_hierarchy display_rects rect_contents := by
  unfold SolvedUi.new
  cases hc : algo.compute NodeId.ZERO node_hierarchy (build_styles display_rects rect_contents)
      rect_contents sz with
  | error e => simp [Except.map, hc]
  | ok solved =>
    simp only [Except.map, hc, SolvedUi.translate, List.map_map]
    simp [Function.comp]

/-- C2: determinism of the facade: the embedding makes every effect of
the computation explicit (the content table is passed by value and the
measurement capability is a function, which is the claim's hypothesis
that measurement is deterministic for identical constraints), so
identical inputs give identical results. -/
theorem new_deterministic [GetStyle T] [GetTextLayout U] (bounds : LayoutRect)
    (node_hierarchy : NodeHierarchy) (display_rects : NodeDataContainer T)
    (rect_contents : List (NodeId × RectContent U)) :
    SolvedUi.new bounds node_hierarchy display_rects rect_contents
      = SolvedUi.new bounds node_hierarchy display_rects rect_contents := rfl

/-- Every element of a successful mapME result comes from applying the
function to some element of the input list. -/
theorem mapME_ok_mem {f : α → Except ε β} :
    ∀ {l : List α} {r : List β}, mapME f l = Except.ok r →
      ∀ b ∈ r, ∃ a ∈ l, f a = Except.ok b := by
  intro l
  induction l with
  | nil =>
    intro r hm b hb
    rw [mapME] at hm
    injection hm with hm
    subst hm
    simp at hb
  | cons a as ih =>
    intro r hm b hb
    rw [mapME] at hm
    split at hm
    · exact absurd hm (by simp)
    · rename_i b0 hfa
      split at hm
      · exact absurd hm (by simp)
      · rename_i bs hrest
        injection hm with hm
        subst hm
        rcases List.mem_cons.mp hb with hb | hb
        · exact ⟨a, List.mem_cons_self a as, by rw [hfa, hb]⟩
        · obtain ⟨a', ha', hfa'⟩ := ih hrest b hb
          exact ⟨a', List.mem_cons_of_mem a ha', hfa'⟩

/-- A successful mapME run succeeded on every element of the input
list. -/
theorem mapME_ok_forall {f : α → Except ε β} :
    ∀ {l : List α} {r : List β}, mapME f l = Except.ok r →
      ∀ a ∈ l, ∃ b, f a = Except.ok b := by
  intro l
  induction l with
  | nil => intro r _ a ha; simp at ha
  | cons a0 as ih =>
    intro r hm a ha
    rw [mapME] at hm
    split at hm
    · exact absurd hm (by simp)
    · rename_i b0 hfa
      split at hm
      · exact absurd hm (by simp)
      · rename_i bs hrest
        rcases List.mem_cons.mp ha with ha | ha
        · exact ⟨b0, by rw [ha]; exact hfa⟩
        · exact ih hrest a ha

/-- Shifting entries preserves their sizes. -/
theorem shiftEntries_mem {p : LayoutPoint} {l : List Entry} {e : Entry}
    (he : e ∈ shiftEntries p l) : ∃ e0 ∈ l, e.2.size = e0.2.size := by
  simp only [shiftEntries, List.mem_map] at he
  obtain ⟨e0, he0, rfl⟩ := he
  exact ⟨e0, he0, rfl⟩

/-- Every placed child component returned by layChildren is the entry
list of some successful call of the recursive layout argument. -/
theorem layChildren_spec {styles : NodeDataContainer Style}
    {recur : NodeId → Size Number → Option LayoutSize →
      Except StructuralIntegrityError (LayoutSize × List Entry)}
    {parent : Style} {children : List NodeId} {inner : Size Number} {padLT : LayoutPoint}
    {res : LayoutSize × List (LayoutPoint × List Entry)}
    (hm : layChildren styles recur parent children inner padLT = Except.ok res) :
    ∀ pe ∈ res.2, ∃ c cont ovr r, recur c cont ovr = Except.ok r ∧ r.2 = pe.2 := by
  unfold layChildren at hm
  split at hm
  · exact absurd hm (by simp)
  · dsimp only at hm
    split at hm
    · exact absurd hm (by simp)
    · split at hm
      · exact absurd hm (by simp)
      · rename_i placedFlow hflow
        split at hm
        · exact absurd hm (by simp)
        · rename_i placedAbs habs
          split at hm
          · exact absurd hm (by simp)
          · rename_i placedHidden hhidden
            injection hm with hm
            subst hm
            intro pe hpe
            simp only [List.mem_append] at hpe
            rcases hpe with (hpe | hpe) | hpe
            · obtain ⟨pl, _, hf⟩ := mapME_ok_mem hflow pe hpe
              cases hr : recur pl.1.id inner (some pl.2.1) with
              | error e0 => rw [hr] at hf; exact absurd hf (by simp [Except.map])
              | ok r =>
                rw [hr] at hf
                simp only [Except.map] at hf
                injection hf with hf
                exact ⟨pl.1.id, inner, some pl.2.1, r, hr, by rw [← hf]⟩
            · obtain ⟨cs, _, hf⟩ := mapME_ok_mem habs pe hpe
              cases hr : recur cs.1 inner none with
              | error e0 => rw [hr] at hf; exact absurd hf (by simp [Except.map])
              | ok r =>
                rw [hr] at hf
                simp only [Except.map] at hf
                injection hf with hf
                exact ⟨cs.1, inner, none, r, hr, by rw [← hf]⟩
            · obtain ⟨cs, _, hf⟩ := mapME_ok_mem hhidden pe hpe
              cases hr : recur cs.1 inner none with
              | error e0 => rw [hr] at hf; exact absurd hf (by simp [Except.map])
              | ok r =>
                rw [hr] at hf
                simp only [Except.map] at hf
                injection hf with hf
                exact ⟨cs.1, inner, none, r, hr, by rw [← hf]⟩

/-- Every entry emitted by the measurement traversal has a non-negative
size on both axes: a node's own rectangle is clamped at emission, and
children's entries are shifted without touching their sizes. -/
theorem measure_nonneg [GetTextLayout U] (h : NodeHierarchy) (styles : NodeDataContainer Style)
    (contents : List (NodeId × RectContent U)) :
    ∀ (fuel : Nat) (n : NodeId) (container : Size Number) (forced : Option LayoutSize)
      (res : LayoutSize × List Entry),
      measure h styles contents fuel n container forced = Except.ok res →
      ∀ e ∈ res.2, 0 ≤ e.2.size.width ∧ 0 ≤ e.2.size.height := by
  intro fuel
  induction fuel with
  | zero =>
    intro n container forced res hm
    rw [measure] at hm
    exact absurd hm (by simp)
  | succ fuel ih =>
    intro n container forced res hm e he
    rw [measure] at hm
    split at hm
    · rename_i style node _ _
      split at hm
      · injection hm with hm
        subst hm
        simp only [finishNode, List.flatMap_nil, List.mem_cons, List.not_mem_nil, or_false] at he
        subst he
        simp [clamp0Size]
      · cases hlc : layChildren styles (measure h styles contents fuel) style node.children
            (innerSize style container) (padTopLeft style container) with
        | error e0 => rw [hlc] at hm; exact absurd hm (by simp [Except.map])
        | ok r =>
          rw [hlc] at hm
          simp only [Except.map] at hm
          injection hm with hm
          subst hm
          simp only [finishNode, List.mem_cons] at he
          rcases he with he | he
          · subst he; simp [clamp0Size]
          · obtain ⟨pe, hpe, hshift⟩ := List.mem_flatMap.mp he
            obtain ⟨e0, he0, hsz⟩ := shiftEntries_mem hshift
            obtain ⟨c, cont, ovr, rr, hrec, hr2⟩ := layChildren_spec hlc pe hpe
            have := ih c cont ovr rr hrec e0 (by rw [hr2]; exact he0)
            rw [hsz]
            exact this
    · exact absurd hm (by simp)

/-- Folding entry updates into an arena of non-negative rectangles
keeps every rectangle non-negative when every entry is. -/
theorem foldl_set_nonneg :
    ∀ (entries : List Entry) (acc : List PositionedRectangle),
      (∀ e ∈ entries, 0 ≤ e.2.size.width ∧ 0 ≤ e.2.size.height) →
      (∀ r ∈ acc, 0 ≤ r.bounds.size.width ∧ 0 ≤ r.bounds.size.height) →
      ∀ r ∈ entries.foldl (fun acc e => acc.set e.1 ⟨e.2⟩) acc,
        0 ≤ r.bounds.size.width ∧ 0 ≤ r.bounds.size.height := by
  intro entries
  induction entries with
  | nil => intro acc _ hacc r hr; exact hacc r hr
  | cons e es ihe =>
    intro acc hent hacc r hr
    simp only [List.foldl_cons] at hr
    refine ihe _ (fun e' he' => hent e' (List.mem_cons_of_mem _ he')) ?_ r hr
    intro r' hr'
    rcases List.mem_or_eq_of_mem_set hr' with hmem | heq
    · exact hacc r' hmem
    · subst heq
      exact hent e (List.mem_cons_self _ _)

/-- C3: every rectangle of a successfully solved UI has non-negative
width and height (malformed input is the error case, so a returned
result is the well-formed-input case of the claim). -/
theorem new_nonneg [GetStyle T] [GetTextLayout U] (bounds : LayoutRect)
    (node_hierarchy : NodeHierarchy) (display_rects : NodeDataContainer T)
    (rect_contents : List (NodeId × RectContent U)) (ui : SolvedUi)
    (hok : SolvedUi.new bounds node_hierarchy display_rects rect_contents = Except.ok ui) :
    ∀ r ∈ ui.solved_rects.internal, 0 ≤ r.bounds.size.width ∧ 0 ≤ r.bounds.size.height := by
  unfold SolvedUi.new at hok
  cases hc : algo.compute NodeId.ZERO node_hierarchy (build_styles display_rects rect_contents)
      rect_contents bounds.size with
  | error e => rw [hc] at hok; exact absurd hok (by simp [Except.map])
  | ok solved =>
    rw [hc] at hok
    simp only [Except.map] at hok
    injection hok with hok
    subst hok
    intro r hr
    simp only [List.mem_map] at hr
    obtain ⟨r0, hr0, rfl⟩ := hr
    unfold algo.compute at hc
    split at hc
    · exact absurd hc (by simp)
    · split at hc
      · exact absurd hc (by simp)
      · rename_i mres hmres
        injection hc with hc
        subst hc
        simp only at hr0
        exact foldl_set_nonneg mres.2 _
          (measure_nonneg node_hierarchy (build_styles display_rects rect_contents) rect_contents
            _ _ _ _ mres hmres)
          (fun rr hrr => by rw [List.eq_of_mem_replicate hrr]; exact ⟨le_refl 0, le_refl 0⟩)
          r0 hr0

set_option maxHeartbeats 1000000 in
/-- Witness for C3 at a concrete input: the single default node solved
inside witnessBounds gives a non-negative rectangle. -/
theorem new_nonneg_witness :
    SolvedUi.new witnessBounds oneNodeHierarchy oneNodeRects noContent = Except.ok oneNodeSolved
      ∧ ∀ r ∈ oneNodeSolved.solved_rects.internal,
          0 ≤ r.bounds.size.width ∧ 0 ≤ r.bounds.size.height := by
  have hok : SolvedUi.new witnessBounds oneNodeHierarchy oneNodeRects noContent
      = Except.ok oneNodeSolved := by
    have hstyle : build_styles oneNodeRects noContent = ⟨[leafStyle]⟩ := by decide
    unfold SolvedUi.new algo.compute
    rw [hstyle]
    simp only [oneNodeHierarchy, witnessBounds, List.length_cons, List.length_nil]
    simp only [checkNode, mapME, Except.map, NodeId.ZERO, List.getElem?_cons_zero,
      Nat.zero_lt_succ, if_true, Nat.lt_irrefl, zero_add]
    simp [measure, layChildren, mapME, leafStyle, finishNode, nodeSize, contentSizeOf, innerSize,
      padTopLeft, resolveSize, applyAspect, normalizeAspect, horizontalExtra, verticalExtra,
      resolve, Number.toQ, Number.get_or, Number.definedQ, Number.sub, lineCrossOf, crossSizeOf,
      mkAxisSize, mkAxisPoint, mainN, crossN, mainOf, crossOf, isRow, isReverse, clampRedistribute,
      clampQ, flowOrigins, zip3Plan, justifyOffsets, mainPositions, fillRects, shiftEntries,
      clamp0Size, Except.map, oneNodeSolved, List.lookup]
  exact ⟨hok, new_nonneg witnessBounds oneNodeHierarchy oneNodeRects noContent oneNodeSolved hok⟩

/-- A successful check of a node checked all of its children. -/
theorem checkNode_children_ok {h : NodeHierarchy} {ns fuel : Nat} {l : List NodeId}
    (hm : (mapME (checkNode h ns fuel) l).map (fun _ => ()) = Except.ok ()) :
    ∀ c ∈ l, checkNode h ns fuel c = Except.ok () := by
  cases hmm : mapME (checkNode h ns fuel) l with
  | error e => rw [hmm] at hm; exact absurd hm (by simp [Except.map])
  | ok bs =>
    intro c hc
    obtain ⟨b, hb⟩ := mapME_ok_forall hmm c hc
    cases b
    exact hb

/-- The recursion-depth guard: a parent/child chain at least as long as
the fuel makes the structural check fail. -/
theorem checkNode_long_path {h : NodeHierarchy} {ns : Nat} :
    ∀ (fuel : Nat) (n : NodeId) (p : List NodeId), IsPath h (n :: p) → fuel ≤ p.length →
      checkNode h ns fuel n ≠ Except.ok () := by
  intro fuel
  induction fuel with
  | zero =>
    intro n p _ _ hok
    rw [checkNode] at hok
    exact absurd hok (by simp)
  | succ fuel ih =>
    intro n p hp hlen hok
    cases p with
    | nil => simp at hlen
    | cons m rest =>
      cases hp with
      | cons _ _ _ hstep htail =>
        obtain ⟨node, hnode, hmem⟩ := hstep
        rw [checkNode] at hok
        split at hok
        · exact absurd hok (by simp)
        · rename_i node' hnode'
          split at hok
          · have hmem' : m ∈ node'.children := by
              rw [hnode'] at hnode
              injection hnode with he
              rw [he]
              exact hmem
            have hcm := checkNode_children_ok hok m hmem'
            exact ih m rest htail (by simpa using Nat.succ_le_succ_iff.mp hlen) hcm
          · exact absurd hok (by simp)

/-- A successful check validates the last node of every chain shorter
than the fuel: it is in range of both the hierarchy and the style
table. -/
theorem checkNode_path_last_valid {h : NodeHierarchy} {ns : Nat} :
    ∀ (fuel : Nat) (n : NodeId) (p : List NodeId), IsPath h (n :: p) → p.length < fuel →
      checkNode h ns fuel n = Except.ok () →
      (n :: p).getLast (List.cons_ne_nil n p) < h.nodes.length ∧
      (n :: p).getLast (List.cons_ne_nil n p) < ns := by
  intro fuel
  induction fuel with
  | zero => intro n p _ hlen _; omega
  | succ fuel ih =>
    intro n p hp hlen hok
    rw [checkNode] at hok
    split at hok
    · exact absurd hok (by simp)
    · rename_i node hnode
      split at hok
      · rename_i hns
        cases p with
        | nil =>
          refine ⟨?_, ?_⟩ <;> simp [List.getLast]
          · exact (List.getElem?_eq_some.mp hnode).1
          · exact hns
        | cons m rest =>
          cases hp with
          | cons _ _ _ hstep htail =>
            obtain ⟨node0, hnode0, hmem⟩ := hstep
            have hmem' : m ∈ node.children := by
              rw [hnode0] at hnode
              injection hnode with he
              rw [← he]
              exact hmem
            have hcm := checkNode_children_ok hok m hmem'
            have hlt : rest.length < fuel := by
              simpa using Nat.succ_le_succ_iff.mp hlen
            have hres := ih m rest htail hlt hcm
            rw [List.getLast_cons (List.cons_ne_nil m rest)]
            exact hres
      · exact absurd hok (by simp)

/-- Concatenating a path ending at v with a path starting at v yields a
path. -/
theorem isPath_append {h : NodeHierarchy} :
    ∀ (xs : List NodeId) (v : NodeId) (ys : List NodeId),
      IsPath h (xs ++ [v]) → IsPath h (v :: ys) → IsPath h (xs ++ v :: ys) := by
  intro xs
  induction xs with
  | nil => intro v ys _ hy; simpa using hy
  | cons a xs ih =>
    intro v ys hx hy
    cases xs with
    | nil =>
      simp only [List.cons_append, List.nil_append] at hx ⊢
      cases hx with
      | cons _ _ _ hstep _ => exact IsPath.cons a v ys hstep hy
    | cons b xs' =>
      simp only [List.cons_append] at hx ⊢
      cases hx with
      | cons _ _ _ hstep htail =>
        exact IsPath.cons a b _ hstep (by simpa using ih v ys (by simpa using htail) hy)

/-- A nonempty prefix of a path is a path. -/
theorem isPath_prefix {h : NodeHierarchy} :
    ∀ (xs ys : List NodeId), xs ≠ [] → IsPath h (xs ++ ys) → IsPath h xs := by
  intro xs
  induction xs with
  | nil => intro ys hne _; exact absurd rfl hne
  | cons a xs ih =>
    intro ys _ hp
    cases xs with
    | nil => exact IsPath.single a
    | cons b xs' =>
      simp only [List.cons_append] at hp
      cases hp with
      | cons _ _ _ hstep htail =>
        exact IsPath.cons a b xs' hstep (by simpa using ih ys (by simp) (by simpa using htail))

/-- A nonempty suffix of a path is a path. -/
theorem isPath_suffix {h : NodeHierarchy} :
    ∀ (xs ys : List NodeId), ys ≠ [] → IsPath h (xs ++ ys) → IsPath h ys := by
  intro xs
  induction xs with
  | nil => intro ys _ hp; simpa using hp
  | cons a xs ih =>
    intro ys hne hp
    apply ih ys hne
    cases hxs : xs ++ ys with
    | nil => exact absurd (List.append_eq_nil.mp hxs).2 hne
    | cons c t =>
      rw [List.cons_append, hxs] at hp
      cases hp with
      | cons _ _ _ _ htail => exact htail

/-- A list that is not duplicate-free decomposes around a repeated
element. -/
theorem exists_dup_decomp :
    ∀ (l : List NodeId), ¬ l.Nodup → ∃ v l1 l2 l3, l = l1 ++ v :: l2 ++ v :: l3 := by
  intro l
  induction l with
  | nil => intro hd; exact absurd List.nodup_nil hd
  | cons a t ih =>
    intro hd
    by_cases ha : a ∈ t
    · obtain ⟨s, u, rfl⟩ := List.append_of_mem ha
      exact ⟨a, [], s, u, by simp⟩
    · have hnd : ¬ t.Nodup := fun hn => hd (List.nodup_cons.mpr ⟨ha, hn⟩)
      obtain ⟨v, l1, l2, l3, rfl⟩ := ih hnd
      exact ⟨v, a :: l1, l2, l3, by simp⟩

/-- The length of a k-fold concatenation. -/
theorem repList_length (c : List NodeId) : ∀ k, (repList c k).length = k * c.length := by
  intro k
  induction k with
  | zero => simp [repList]
  | succ k ih => simp [repList, ih, Nat.succ_mul, Nat.add_comm]

/-- Pumping a cycle: a path from v back to v can be repeated any number
of times. -/
theorem cycle_pump {h : NodeHierarchy} {v : NodeId} {l2 : List NodeId}
    (hcyc : IsPath h (v :: l2 ++ [v])) :
    ∀ k, IsPath h (v :: repList (l2 ++ [v]) k) := by
  intro k
  induction k with
  | zero => exact IsPath.single v
  | succ k ihk =>
    have := isPath_append (v :: l2) v (repList (l2 ++ [v]) k) (by simpa using hcyc) ihk
    simpa [repList, List.append_assoc] using this

/-- From a path from the root that revisits a node, paths from the root
of arbitrary length exist. -/
theorem exists_long_path {h : NodeHierarchy} {root : NodeId} {p : List NodeId}
    (hp : IsPath h (root :: p)) (hd : ¬ (root :: p).Nodup) :
    ∀ L : Nat, ∃ q : List NodeId, IsPath h (root :: q) ∧ L ≤ q.length := by
  obtain ⟨v, l1, l2, l3, hdec⟩ := exists_dup_decomp _ hd
  intro L
  rw [hdec] at hp
  -- hp : IsPath h ((l1 ++ (v :: l2)) ++ (v :: l3)); reassociate
  have hp' : IsPath h (l1 ++ ((v :: l2) ++ (v :: l3))) := by
    rw [← List.append_assoc]
    exact hp
  have hsuffix : IsPath h ((v :: l2) ++ (v :: l3)) := isPath_suffix l1 _ (by simp) hp'
  have hcycle : IsPath h (v :: l2 ++ [v]) := by
    have hsx : IsPath h (((v :: l2) ++ [v]) ++ l3) := by
      rw [List.append_assoc]
      simpa using hsuffix
    have := isPath_prefix _ l3 (by simp) hsx
    simpa using this
  have hpump := cycle_pump hcycle L
  have hlenL : L ≤ (repList (l2 ++ [v]) L).length := by
    rw [repList_length]
    have h1 : 1 ≤ (l2 ++ [v]).length := by simp
    calc L = L * 1 := by omega
      _ ≤ L * (l2 ++ [v]).length := Nat.mul_le_mul_left L h1
  cases l1 with
  | nil =>
    have hv : root = v := by
      simp only [List.nil_append, List.cons_append] at hdec
      exact (List.cons.injEq _ _ _ _).mp hdec |>.1
    refine ⟨repList (l2 ++ [v]) L, ?_, hlenL⟩
    rw [hv]
    exact hpump
  | cons r0 l1' =>
    have hr0 : r0 = root := by
      simp only [List.cons_append] at hdec
      exact ((List.cons.injEq _ _ _ _).mp hdec |>.1).symm
    have hpre : IsPath h ((r0 :: l1') ++ [v]) := by
      apply isPath_prefix ((r0 :: l1') ++ [v]) (l2 ++ (v :: l3)) (by simp)
      have heq : ((r0 :: l1') ++ [v]) ++ (l2 ++ (v :: l3))
          = (r0 :: l1') ++ ((v :: l2) ++ (v :: l3)) := by
        simp [List.append_assoc]
      rw [heq]
      exact hp'
    have hjoin := isPath_append (r0 :: l1') v (repList (l2 ++ [v]) L) hpre hpump
    subst hr0
    refine ⟨l1' ++ v :: repList (l2 ++ [v]) L, by simpa using hjoin, ?_⟩
    calc L ≤ (repList (l2 ++ [v]) L).length := hlenL
      _ ≤ (l1' ++ v :: repList (l2 ++ [v]) L).length := by
        rw [List.length_append, List.length_cons]
        omega

/-- C9: on malformed input — a chain from the root reaching an
out-of-range or style-less node identity, or a cyclic parent/child
relationship reachable from the root — the computation invoked by
SolvedUi::new terminates by failing fast with a structural-integrity
error (recursion-depth guard), rather than recursing unboundedly or
returning partial geometry. -/
theorem compute_fails_fast [GetTextLayout U] (node_hierarchy : NodeHierarchy)
    (styles : NodeDataContainer Style) (rect_contents : List (NodeId × RectContent U))
    (sz : LayoutSize) (hbad : MalformedInput node_hierarchy styles NodeId.ZERO) :
    ∃ e, algo.compute NodeId.ZERO node_hierarchy styles rect_contents sz = Except.error e := by
  have hchk : checkNode node_hierarchy styles.internal.length
      (node_hierarchy.nodes.length + 1) NodeId.ZERO ≠ Except.ok () := by
    rcases hbad with ⟨p, hp, hlast⟩ | ⟨p, hp, hd⟩
    · by_cases hlen : node_hierarchy.nodes.length + 1 ≤ p.length
      · exact checkNode_long_path _ _ p hp hlen
      · intro hok
        exact hlast (checkNode_path_last_valid _ _ p hp (by omega) hok)
    · obtain ⟨q, hq, hqlen⟩ := exists_long_path hp hd (node_hierarchy.nodes.length + 1)
      exact checkNode_long_path _ _ q hq hqlen
  cases hc : checkNode node_hierarchy styles.internal.length
      (node_hierarchy.nodes.length + 1) NodeId.ZERO with
  | error e =>
    refine ⟨e, ?_⟩
    unfold algo.compute
    rw [hc]
  | ok u =>
    cases u
    exact absurd hc hchk

/-- Witness for C9 at a concrete input: a root that lists itself as a
child makes the computation fail with a structural-integrity error. -/
theorem compute_fails_fast_witness :
    ∃ e, algo.compute (U := Unit) NodeId.ZERO cyclicHierarchy oneStyle []
        { width := 10, height := 10 } = Except.error e :=
  compute_fails_fast cyclicHierarchy oneStyle [] { width := 10, height := 10 }
    (Or.inr ⟨[0], IsPath.cons 0 0 [] ⟨⟨[0]⟩, by decide, by decide⟩ (IsPath.single 0),
      by decide⟩)

end AzulLayout
